import Mathlib

/-!
Verification of the ironoxide client-side crypto/identity core.

Byte strings are modelled as `List Nat` (each entry one `u8`), Rust strings
as `List Char` (Rust `str` iterates Unicode scalar values; `.len()` is the
UTF-8 byte length, modelled by `utf8Length`). Fallible Rust functions
returning `Result<T, E>` become `Except E T` (or `Option T` where the error
type is the external library's opaque `Unspecified`). The external `ring`
primitives (PBKDF2 and AES-256-GCM seal/open) are not part of this
repository; they are modelled as an abstract `RingCrypto` structure whose
fields carry the determinism, output-length and seal/open round-trip
contracts the spec assumes of them.
-/

deriving instance DecidableEq for Except

namespace IronOxide

/-- The single-quote character, used when rendering Rust `format!` strings
that wrap a value in quotes. -/
def squote : Char := Char.ofNat 39

/-- Render a value wrapped in single quotes, as Rust `format!("'\x7b\x7d'", v)` does. -/
def fmtQuoted (s : List Char) : List Char := [squote] ++ s ++ [squote]

/-- Predicate: `containsSub small big` holds when `small` occurs contiguously inside `big`
(the substring relation used to state "the message contains ..."). -/
def containsSub (small big : List Char) : Prop := ∃ s t, big = s ++ small ++ t

/-- From `src/internal/mod.rs`: the `IronOxideErr` variants exercised by the
claims (`quick_error!` block, lines 58-106). Other variants are irrelevant
to the embedded functions and omitted. -/
inductive IronOxideErr where
  | ValidationError (field_name : List Char) (err : List Char)
  | WrongSizeError (actual_size : Option Nat) (expected_size : Option Nat)
  | AesEncryptedDocSizeError
  | AesError
deriving DecidableEq

/-- The `Display` rendering from the `quick_error!` block. Only
`ValidationError` has a `display` clause the claims rely on
("'\x7b\x7d' failed validation with the error '\x7b\x7d'"); the other variants render
their own messages, unused by any claim, so they are mapped to fixed text. -/
def IronOxideErr.display : IronOxideErr → List Char
  | .ValidationError field_name err =>
      fmtQuoted field_name ++ " failed validation with the error ".data ++ fmtQuoted err
  | .WrongSizeError _ _ => []
  | .AesEncryptedDocSizeError =>
      "Provided document is not long enough to be an encrypted document.".data
  | .AesError => []

/-! ### Constants from `src/crypto/aes.rs` -/

def PBKDF2_SALT_LEN : Nat := 32
def AES_GCM_TAG_LEN : Nat := 16
def AES_IV_LEN : Nat := 12
def AES_KEY_LEN : Nat := 32
def ENCRYPTED_KEY_AND_GCM_TAG_LEN : Nat := AES_KEY_LEN + AES_GCM_TAG_LEN

/-- Abstract model of the external `ring` primitives used by
`src/crypto/aes.rs`. `pbkdf2` is `ring::pbkdf2::derive` (SHA-256, fixed
250,000 iterations baked in); `seal` is `aead::seal_in_place` for
AES-256-GCM with empty AAD (returns ciphertext followed by the 16-byte
tag); `openA` is `aead::open_in_place` (returns the plaintext, or `none` on
authentication failure). The three propositional fields record the
contracts the spec assumes of these collaborators: PBKDF2 yields a 32-byte
key, sealing adds exactly the tag length, and opening a sealed value under
the same key and nonce returns the plaintext. -/
structure RingCrypto where
  pbkdf2 : List Nat → List Nat → List Nat
  sealA : List Nat → List Nat → List Nat → List Nat
  openA : List Nat → List Nat → List Nat → Option (List Nat)
  pbkdf2_length : ∀ salt password, (pbkdf2 salt password).length = 32
  seal_length : ∀ key iv plaintext, (sealA key iv plaintext).length = plaintext.length + AES_GCM_TAG_LEN
  open_seal : ∀ key iv plaintext, openA key iv (sealA key iv plaintext) = some plaintext

/-- A trivially correct instance of the `RingCrypto` interface, used only to
instantiate theorems at concrete inputs (the tag is 16 zero bytes; opening
strips it). -/
def toyCrypto : RingCrypto where
  pbkdf2 := fun _ _ => List.replicate 32 0
  sealA := fun _ _ plaintext => plaintext ++ List.replicate 16 0
  openA := fun _ _ ct => if 16 ≤ ct.length then some (ct.take (ct.length - 16)) else none
  pbkdf2_length := fun _ _ => by simp
  seal_length := fun _ _ plaintext => by simp [AES_GCM_TAG_LEN]
  open_seal := fun _ _ plaintext => by
    have h16 : 16 ≤ plaintext.length + 16 := by omega
    simp only [List.length_append, List.length_replicate, if_pos h16,
      Nat.add_sub_cancel, Option.some.injEq]
    exact List.take_left' rfl

/-- From `src/crypto/aes.rs` lines 19-23: the persisted form of a sealed master
key. The Rust fields are fixed-size arrays `[u8; 32]`, `[u8; 12]`,
`[u8; 48]`; the length invariant is captured by `EncryptedMasterKey.wf`. -/
structure EncryptedMasterKey where
  pbkdf2_salt : List Nat
  aes_iv : List Nat
  encrypted_key : List Nat
deriving DecidableEq

/-- The length invariant enforced in Rust by the fixed-size array types of
`EncryptedMasterKey`'s fields. -/
def EncryptedMasterKey.wf (k : EncryptedMasterKey) : Prop :=
  k.pbkdf2_salt.length = PBKDF2_SALT_LEN ∧ k.aes_iv.length = AES_IV_LEN ∧
    k.encrypted_key.length = ENCRYPTED_KEY_AND_GCM_TAG_LEN

/-- Embeds `EncryptedMasterKey::SIZE_BYTES` (aes.rs line 37). -/
def EncryptedMasterKey.SIZE_BYTES : Nat :=
  PBKDF2_SALT_LEN + AES_IV_LEN + ENCRYPTED_KEY_AND_GCM_TAG_LEN

/-- Embeds `EncryptedMasterKey::bytes` (aes.rs lines 72-85): concatenation
salt ‖ iv ‖ encrypted_key copied into a `[u8; 92]`. -/
def EncryptedMasterKey.bytes (k : EncryptedMasterKey) : List Nat :=
  k.pbkdf2_salt ++ k.aes_iv ++ k.encrypted_key

/-- Embeds `EncryptedMasterKey::new_from_slice` (aes.rs lines 53-68): accepts
exactly `SIZE_BYTES` bytes, splitting them at offsets 32 and 44; any other
length yields `WrongSizeError(actual, expected)`. -/
def EncryptedMasterKey.new_from_slice (bytes : List Nat) :
    Except IronOxideErr EncryptedMasterKey :=
  if bytes.length = EncryptedMasterKey.SIZE_BYTES then
    .ok { pbkdf2_salt := bytes.take PBKDF2_SALT_LEN
          aes_iv := (bytes.drop PBKDF2_SALT_LEN).take AES_IV_LEN
          encrypted_key := bytes.drop (PBKDF2_SALT_LEN + AES_IV_LEN) }
  else
    .error (.WrongSizeError (some bytes.length) (some EncryptedMasterKey.SIZE_BYTES))

/-- From `src/crypto/aes.rs` lines 88-91: the transient result of a symmetric
encryption, a 12-byte IV plus variable-length ciphertext (tag included). -/
structure AesEncryptedValue where
  aes_iv : List Nat
  ciphertext : List Nat
deriving DecidableEq

/-- Embeds `AesEncryptedValue::bytes` (aes.rs lines 93-95): iv ‖ ciphertext. -/
def AesEncryptedValue.bytes (v : AesEncryptedValue) : List Nat :=
  v.aes_iv ++ v.ciphertext

/-- Embeds `impl TryFrom<&[u8]> for AesEncryptedValue` (aes.rs lines 98-114): a
slice of length at most IV+tag+1 is rejected with
`AesEncryptedDocSizeError`; otherwise the first 12 bytes become the IV and
the rest the ciphertext. -/
def AesEncryptedValue.try_from (bytes : List Nat) :
    Except IronOxideErr AesEncryptedValue :=
  if bytes.length ≤ AES_IV_LEN + AES_GCM_TAG_LEN + 1 then
    .error .AesEncryptedDocSizeError
  else
    .ok { aes_iv := bytes.take AES_IV_LEN, ciphertext := bytes.drop AES_IV_LEN }

/-- Embeds `derive_key_from_password` (aes.rs lines 124-134): PBKDF2 over the
password bytes and salt. Deterministic by construction. -/
def derive_key_from_password (C : RingCrypto) (password salt : List Nat) : List Nat :=
  C.pbkdf2 salt password

/-- Embeds `encrypt` (aes.rs lines 179-205). The Rust function draws a fresh
12-byte IV from the rng; here the drawn IV is the `iv` argument.
`aead::SealingKey::new` fails (ring `Unspecified`, modelled as `none`) when
the key is not 32 bytes; otherwise the plaintext is sealed in place,
growing by the 16-byte tag. -/
def encrypt (C : RingCrypto) (iv plaintext key : List Nat) : Option AesEncryptedValue :=
  if key.length = AES_KEY_LEN then
    some { aes_iv := iv, ciphertext := C.sealA key iv plaintext }
  else
    none

/-- Embeds `decrypt` (aes.rs lines 223-237): `aead::OpeningKey::new` fails when the
key is not 32 bytes; otherwise `open_in_place` authenticates and returns
the plaintext region. -/
def decrypt (C : RingCrypto) (encrypted_doc : AesEncryptedValue) (key : List Nat) :
    Option (List Nat) :=
  if key.length = AES_KEY_LEN then
    C.openA key encrypted_doc.aes_iv encrypted_doc.ciphertext
  else
    none

/-- Embeds `encrypt_user_master_key` (aes.rs lines 138-157). The rng draws `salt`
(32 bytes) then, inside `encrypt`, `iv` (12 bytes). The ciphertext is
copied into a fixed `[u8; 48]` (`copy_from_slice`, which panics — modelled
as `none` — unless the ciphertext is exactly 48 bytes). -/
def encrypt_user_master_key (C : RingCrypto) (salt iv password user_master_key : List Nat) :
    Option EncryptedMasterKey :=
  let derived_key := derive_key_from_password C password salt
  match encrypt C iv user_master_key derived_key with
  | none => none
  | some encrypted_key =>
      if encrypted_key.ciphertext.length = ENCRYPTED_KEY_AND_GCM_TAG_LEN then
        some { pbkdf2_salt := salt
               aes_iv := encrypted_key.aes_iv
               encrypted_key := encrypted_key.ciphertext }
      else
        none

/-- Embeds `decrypt_user_master_key` (aes.rs lines 162-175): re-derive the key
from the stored salt, open the stored ciphertext, and copy the plaintext
into a fixed `[u8; 32]` (`copy_from_slice` panics — modelled as `none` —
unless the plaintext is exactly 32 bytes). -/
def decrypt_user_master_key (C : RingCrypto) (password : List Nat)
    (encrypted_master_key : EncryptedMasterKey) : Option (List Nat) :=
  let derived_key :=
    derive_key_from_password C password encrypted_master_key.pbkdf2_salt
  let encrypted_key : AesEncryptedValue :=
    { aes_iv := encrypted_master_key.aes_iv
      ciphertext := encrypted_master_key.encrypted_key }
  match decrypt C encrypted_key derived_key with
  | none => none
  | some decrypted_master_key =>
      if decrypted_master_key.length = 32 then some decrypted_master_key else none

/-! ### Identifier validation, `src/internal/mod.rs` -/

/-- Rust `char::is_whitespace`: membership in the Unicode `White_Space`
property (the code-point set as of the Unicode tables Rust ships). -/
def rust_is_whitespace (c : Char) : Bool :=
  let n := c.toNat
  (0x09 ≤ n && n ≤ 0x0D) || n == 0x20 || n == 0x85 || n == 0xA0 || n == 0x1680 ||
    (0x2000 ≤ n && n ≤ 0x200A) || n == 0x2028 || n == 0x2029 || n == 0x202F ||
    n == 0x205F || n == 0x3000

/-- Rust `str::trim`: drop leading and trailing whitespace characters. -/
def trim_ws (s : List Char) : List Char :=
  ((s.dropWhile rust_is_whitespace).reverse.dropWhile rust_is_whitespace).reverse

/-- The UTF-8 byte width of a Unicode scalar value (Rust `char::len_utf8`). -/
def utf8Size (c : Char) : Nat :=
  if c.toNat < 0x80 then 1 else if c.toNat < 0x800 then 2
  else if c.toNat < 0x10000 then 3 else 4

/-- Rust `str::len`: the UTF-8 byte length of a string. -/
def utf8Length (s : List Char) : Nat := (s.map utf8Size).sum

/-- Embeds `NAME_AND_ID_MAX_LEN` (mod.rs line 127). -/
def NAME_AND_ID_MAX_LEN : Nat := 100

/-- Membership in the character class of the id regex
`[a-zA-Z0-9_.$#|@/:;=+'-]` (mod.rs line 133); every character listed is a
literal inside the class. -/
def id_char_allowed (c : Char) : Bool :=
  (0x61 ≤ c.toNat && c.toNat ≤ 0x7A) || (0x41 ≤ c.toNat && c.toNat ≤ 0x5A) ||
    (0x30 ≤ c.toNat && c.toNat ≤ 0x39) ||
    c == Char.ofNat 0x5F || c == Char.ofNat 0x2E || c == Char.ofNat 0x24 ||
    c == Char.ofNat 0x23 || c == Char.ofNat 0x7C || c == Char.ofNat 0x40 ||
    c == Char.ofNat 0x2F || c == Char.ofNat 0x3A || c == Char.ofNat 0x3B ||
    c == Char.ofNat 0x3D || c == Char.ofNat 0x2B || c == squote ||
    c == Char.ofNat 0x2D

/-- Embeds `id_regex.is_match` for the anchored pattern `^[...]+$`: the whole
string must be a non-empty run of allowed characters. -/
def id_regex_is_match (s : List Char) : Bool :=
  !s.isEmpty && s.all id_char_allowed

/-- Embeds `validate_id` (mod.rs lines 132-148): trim, reject empty or over-long
(byte length > 100) values, reject values outside the restricted character
set, otherwise return the trimmed id. -/
def validate_id (id id_type : List Char) : Except IronOxideErr (List Char) :=
  let trimmed_id := trim_ws id
  if trimmed_id.isEmpty || decide (NAME_AND_ID_MAX_LEN < utf8Length trimmed_id) then
    .error (.ValidationError id_type
      (fmtQuoted trimmed_id ++ " must have length between 1 and 100".data))
  else if !id_regex_is_match trimmed_id then
    .error (.ValidationError id_type
      (fmtQuoted trimmed_id ++ " contains invalid characters".data))
  else
    .ok trimmed_id

/-! ### `Jwt` and `DeviceId` -/

/-- Embeds `Jwt` (mod.rs line 433): a structurally validated JWT string. -/
structure Jwt where
  val : List Char
deriving DecidableEq

/-- Rust `str::is_ascii`: every character is at most U+007F. -/
def is_ascii (s : List Char) : Bool := s.all (fun c => c.toNat ≤ 0x7F)

/-- Embeds `maybe_jwt.matches(".").count()`: the number of occurrences of the
one-character pattern `.`. -/
def count_dots (s : List Char) : Nat :=
  (s.filter (fun c => c == Char.ofNat 0x2E)).length

/-- Embeds `impl TryFrom<&str> for Jwt` (mod.rs lines 434-447): accept any ASCII
string with exactly two dots; otherwise a `ValidationError` on field "JWT".
No signature or claim verification happens here. -/
def Jwt.try_from (maybe_jwt : List Char) : Except IronOxideErr Jwt :=
  if is_ascii maybe_jwt && count_dots maybe_jwt == 2 then
    .ok ⟨maybe_jwt⟩
  else
    .error (.ValidationError "JWT".data
      "must be valid ascii and be formatted correctly".data)

/-- Embeds `DeviceId` (user_api.rs line 59), wrapping a Rust `u64`; the value is a
natural number below 2^64. -/
structure DeviceId where
  val : Nat
deriving DecidableEq

/-- Value of `i64::max_value()` as a `u64`. -/
def I64_MAX : Nat := 2 ^ 63 - 1

/-- Embeds `impl TryFrom<u64> for DeviceId` (user_api.rs lines 66-81): reject 0 and
anything above `i64::max_value()`, accept the rest. -/
def DeviceId.try_from (device_id : Nat) : Except IronOxideErr DeviceId :=
  if device_id < 1 || decide (I64_MAX < device_id) then
    .error (.ValidationError "device_id".data
      (fmtQuoted (Nat.repr device_id).data ++ " must be a number greater than 0".data))
  else
    .ok ⟨device_id⟩

/-! ### `get_user_keys`, `src/internal/user_api.rs` -/

/-- Embeds `UserId` (user_api.rs line 27). -/
structure UserId where
  val : List Char
deriving DecidableEq

/-- Embeds `WithKey<T>` (mod.rs lines 472-475), with the public-key type abstract
(public keys are opaque wrappers over the external recrypt library). -/
structure WithKey (T PK : Type) where
  id : T
  public_key : PK
deriving DecidableEq

/-- Embeds `itertools::partition_map`: send each element left or right, preserving
order on both sides. -/
def partition_map {α β γ : Type} (f : α → β ⊕ γ) : List α → List β × List γ
  | [] => ([], [])
  | a :: rest =>
      let p := partition_map f rest
      match f a with
      | .inl b => (b :: p.1, p.2)
      | .inr c => (p.1, c :: p.2)

/-- The closure passed to `partition_map` inside `get_user_keys`
(user_api.rs lines 569-575): ids found in the key map go right, paired with
their public key; missing ids go left. -/
def lookup_either {PK : Type} (ids_with_keys : UserId → Option PK) (user_id : UserId) :
    UserId ⊕ WithKey UserId PK :=
  match ids_with_keys user_id with
  | some pk => .inr ⟨user_id, pk⟩
  | none => .inl user_id

/-- Embeds `get_user_keys` (user_api.rs lines 558-578). The backend collaborator
`user_key_list` (a network call returning a user-id → public-key map, with
ids whose keys fail to decode already dropped) is passed in as a function
argument; `get_user_keys` is quantified over it, so the empty-input branch
provably never consults it. The map's `HashMap::get` is modelled as the
function `UserId → Option PK`. -/
def get_user_keys {E PK : Type}
    (user_key_list : List UserId → Except E (UserId → Option PK))
    (users : List UserId) :
    Except E (List UserId × List (WithKey UserId PK)) :=
  if users.isEmpty then
    .ok ([], [])
  else
    (user_key_list users).map fun ids_with_keys =>
      partition_map (lookup_either ids_with_keys) users

/-- A concrete scripted backend used only to instantiate the C7 theorem:
it resolves the id `a` to key 1 and nothing else. -/
def demoKeyList : List UserId → Except Unit (UserId → Option Nat) :=
  fun _ => .ok (fun u => if u.val = "a".data then some 1 else none)

/-! ### Helper lemmas -/

/-- The rendered `ValidationError` message contains the field name. -/
theorem display_contains_field (f e : List Char) :
    containsSub f (IronOxideErr.display (.ValidationError f e)) :=
  ⟨[squote], [squote] ++ " failed validation with the error ".data ++ fmtQuoted e, by
    simp [IronOxideErr.display, fmtQuoted]⟩

/-- The rendered `ValidationError` message contains a value whose quoted
form heads the inner error text. -/
theorem display_contains_quoted (f v tail : List Char) :
    containsSub v (IronOxideErr.display (.ValidationError f (fmtQuoted v ++ tail))) :=
  ⟨fmtQuoted f ++ " failed validation with the error ".data ++ [squote] ++ [squote],
   [squote] ++ tail ++ [squote], by
    simp [IronOxideErr.display, fmtQuoted]⟩

theorem partition_map_length {α β γ : Type} (f : α → β ⊕ γ) (l : List α) :
    (partition_map f l).1.length + (partition_map f l).2.length = l.length := by
  induction l with
  | nil => rfl
  | cons a rest ih =>
      rcases h : f a with b | c <;>
        simp only [partition_map, h, List.length_cons] <;> omega

theorem mem_partition_left {PK : Type} (m : UserId → Option PK) (l : List UserId)
    (u : UserId) :
    u ∈ (partition_map (lookup_either m) l).1 ↔ u ∈ l ∧ m u = none := by
  induction l with
  | nil => simp [partition_map]
  | cons a rest ih =>
      cases h : m a with
      | none =>
          simp only [partition_map, lookup_either, h, List.mem_cons]
          constructor
          · rintro (rfl | hu)
            · exact ⟨Or.inl rfl, h⟩
            · exact ⟨Or.inr (ih.1 hu).1, (ih.1 hu).2⟩
          · rintro ⟨rfl | hu, hm⟩
            · exact Or.inl rfl
            · exact Or.inr (ih.2 ⟨hu, hm⟩)
      | some pk =>
          simp only [partition_map, lookup_either, h, List.mem_cons]
          constructor
          · intro hu
            exact ⟨Or.inr (ih.1 hu).1, (ih.1 hu).2⟩
          · rintro ⟨rfl | hu, hm⟩
            · rw [h] at hm; cases hm
            · exact ih.2 ⟨hu, hm⟩

theorem mem_partition_right {PK : Type} (m : UserId → Option PK) (l : List UserId)
    (w : WithKey UserId PK) :
    w ∈ (partition_map (lookup_either m) l).2 ↔
      w.id ∈ l ∧ m w.id = some w.public_key := by
  induction l with
  | nil => simp [partition_map]
  | cons a rest ih =>
      cases h : m a with
      | none =>
          simp only [partition_map, lookup_either, h, List.mem_cons]
          constructor
          · intro hw
            exact ⟨Or.inr (ih.1 hw).1, (ih.1 hw).2⟩
          · rintro ⟨hid | hw, hm⟩
            · rw [hid] at hm; rw [h] at hm; cases hm
            · exact ih.2 ⟨hw, hm⟩
      | some pk =>
          simp only [partition_map, lookup_either, h, List.mem_cons]
          constructor
          · rintro (rfl | hw)
            · exact ⟨Or.inl rfl, h⟩
            · exact ⟨Or.inr (ih.1 hw).1, (ih.1 hw).2⟩
          · rintro ⟨hid | hw, hm⟩
            · left
              rw [hid] at hm; rw [h] at hm
              cases w
              simp only at hid hm
              injection hm with hm
              rw [hid, hm]
            · exact Or.inr (ih.2 ⟨hw, hm⟩)

/-! ### Claim theorems -/

/-- C2: serializing an `EncryptedMasterKey` always yields exactly 92 bytes
(32 salt ‖ 12 iv ‖ 48 key-and-tag) and `new_from_slice` inverts it; a slice
of any other length fails with `WrongSizeError(actual, expected)`. -/
theorem claim_c2_master_key_bytes_roundtrip :
    (∀ x : EncryptedMasterKey, x.wf →
      x.bytes.length = 92 ∧ EncryptedMasterKey.new_from_slice x.bytes = .ok x) ∧
    (∀ bs : List Nat, bs.length ≠ 92 →
      EncryptedMasterKey.new_from_slice bs =
        .error (.WrongSizeError (some bs.length) (some 92))) := by
  constructor
  · rintro ⟨salt, iv, ek⟩ ⟨h1, h2, h3⟩
    simp only [EncryptedMasterKey.wf, PBKDF2_SALT_LEN, AES_IV_LEN,
      ENCRYPTED_KEY_AND_GCM_TAG_LEN, AES_KEY_LEN, AES_GCM_TAG_LEN] at h1 h2 h3
    have hlen : (EncryptedMasterKey.bytes ⟨salt, iv, ek⟩).length = 92 := by
      simp [EncryptedMasterKey.bytes, h1, h2, h3]
    refine ⟨hlen, ?_⟩
    rw [EncryptedMasterKey.new_from_slice, if_pos (by
      rw [hlen]; rfl)]
    simp only [EncryptedMasterKey.bytes, PBKDF2_SALT_LEN, AES_IV_LEN]
    have htake : (salt ++ (iv ++ ek)).take 32 = salt := List.take_left' h1
    have hdrop : (salt ++ (iv ++ ek)).drop 32 = iv ++ ek := List.drop_left' h1
    have htake2 : (iv ++ ek).take 12 = iv := List.take_left' h2
    have hdrop2 : (salt ++ (iv ++ ek)).drop (32 + 12) = ek := by
      rw [← List.append_assoc]
      exact List.drop_left' (by simp [h1, h2])
    simp [htake, hdrop, htake2, hdrop2]
  · intro bs hbs
    rw [EncryptedMasterKey.new_from_slice, if_neg (by
      intro h
      exact hbs (by simpa [EncryptedMasterKey.SIZE_BYTES, PBKDF2_SALT_LEN, AES_IV_LEN,
        ENCRYPTED_KEY_AND_GCM_TAG_LEN, AES_KEY_LEN, AES_GCM_TAG_LEN] using h))]
    rfl

/-- Closed instantiation of the C2 theorem at a concrete key and at a
wrong-size slice. -/
theorem claim_c2_master_key_bytes_roundtrip_witness :
    ((EncryptedMasterKey.bytes ⟨List.replicate 32 1, List.replicate 12 2,
        List.replicate 48 3⟩).length = 92 ∧
      EncryptedMasterKey.new_from_slice
          (EncryptedMasterKey.bytes ⟨List.replicate 32 1, List.replicate 12 2,
            List.replicate 48 3⟩) =
        .ok ⟨List.replicate 32 1, List.replicate 12 2, List.replicate 48 3⟩) ∧
    EncryptedMasterKey.new_from_slice [0, 1, 2] =
      .error (.WrongSizeError (some 3) (some 92)) :=
  ⟨claim_c2_master_key_bytes_roundtrip.1
      ⟨List.replicate 32 1, List.replicate 12 2, List.replicate 48 3⟩
      ⟨by decide, by decide, by decide⟩,
    claim_c2_master_key_bytes_roundtrip.2 [0, 1, 2] (by decide)⟩

/-- C5: decoding an `AesEncryptedValue` fails with
`AesEncryptedDocSizeError` exactly when the slice has at most 29 bytes
(12-byte IV + 16-byte tag + 1); any slice of at least 30 bytes is accepted
structurally, split into a 12-byte IV and the remaining ciphertext. -/
theorem claim_c5_aes_value_decode_size (bytes : List Nat) :
    (bytes.length ≤ 29 →
      AesEncryptedValue.try_from bytes = .error .AesEncryptedDocSizeError) ∧
    (30 ≤ bytes.length →
      AesEncryptedValue.try_from bytes =
        .ok ⟨bytes.take 12, bytes.drop 12⟩) := by
  constructor
  · intro h
    rw [AesEncryptedValue.try_from, if_pos (by
      simp only [AES_IV_LEN, AES_GCM_TAG_LEN]; omega)]
  · intro h
    rw [AesEncryptedValue.try_from, if_neg (by
      simp only [AES_IV_LEN, AES_GCM_TAG_LEN]; omega)]
    rfl

/-- Closed instantiation of the C5 theorem at slices of length 29 and 30. -/
theorem claim_c5_aes_value_decode_size_witness :
    AesEncryptedValue.try_from (List.replicate 29 7) =
      .error .AesEncryptedDocSizeError ∧
    AesEncryptedValue.try_from (List.replicate 30 7) =
      .ok ⟨(List.replicate 30 7).take 12, (List.replicate 30 7).drop 12⟩ :=
  ⟨(claim_c5_aes_value_decode_size (List.replicate 29 7)).1 (by decide),
    (claim_c5_aes_value_decode_size (List.replicate 30 7)).2 (by decide)⟩

/-- C8: `Jwt` construction succeeds for every ASCII string with exactly two
dot separators and fails with a `ValidationError` for every non-ASCII
string and every string whose dot count differs from two; no further
verification is performed (the accepted value is the input, unchanged). -/
theorem claim_c8_jwt_structural (s : List Char) :
    (is_ascii s = true ∧ count_dots s = 2 → Jwt.try_from s = .ok ⟨s⟩) ∧
    (is_ascii s = false →
      Jwt.try_from s = .error (.ValidationError "JWT".data
        "must be valid ascii and be formatted correctly".data)) ∧
    (count_dots s ≠ 2 →
      Jwt.try_from s = .error (.ValidationError "JWT".data
        "must be valid ascii and be formatted correctly".data)) := by
  refine ⟨?_, ?_, ?_⟩
  · rintro ⟨ha, hc⟩
    rw [Jwt.try_from, if_pos (by simp [ha, hc])]
  · intro ha
    rw [Jwt.try_from, if_neg (by simp [ha])]
  · intro hc
    rw [Jwt.try_from, if_neg (by simp [hc])]

/-- Closed instantiation of the C8 theorem on a three-segment ASCII string,
a two-segment string, and a non-ASCII string. -/
theorem claim_c8_jwt_structural_witness :
    Jwt.try_from "a.b.c".data = .ok ⟨"a.b.c".data⟩ ∧
    Jwt.try_from "a.b".data = .error (.ValidationError "JWT".data
      "must be valid ascii and be formatted correctly".data) ∧
    Jwt.try_from "❤.❤.❤".data = .error (.ValidationError "JWT".data
      "must be valid ascii and be formatted correctly".data) :=
  ⟨(claim_c8_jwt_structural "a.b.c".data).1 ⟨by decide, by decide⟩,
    (claim_c8_jwt_structural "a.b".data).2.2 (by decide),
    (claim_c8_jwt_structural "❤.❤.❤".data).2.1 (by decide)⟩

/-- C9: `DeviceId` construction from a `u64` succeeds exactly for values in
`[1, i64::max_value()]`; in particular 0 and 2^63 are rejected with a
`ValidationError` on field `device_id`, while 1 and 2^63 - 1 are
accepted. -/
theorem claim_c9_device_id_bounds :
    (∀ v : Nat, v < 2 ^ 64 →
      (1 ≤ v ∧ v ≤ I64_MAX → DeviceId.try_from v = .ok ⟨v⟩) ∧
      (¬(1 ≤ v ∧ v ≤ I64_MAX) →
        ∃ msg, DeviceId.try_from v = .error (.ValidationError "device_id".data msg))) ∧
    DeviceId.try_from 0 = .error (.ValidationError "device_id".data
      (fmtQuoted "0".data ++ " must be a number greater than 0".data)) ∧
    DeviceId.try_from 1 = .ok ⟨1⟩ ∧
    DeviceId.try_from (2 ^ 63 - 1) = .ok ⟨2 ^ 63 - 1⟩ ∧
    (∃ msg, DeviceId.try_from (2 ^ 63) =
      .error (.ValidationError "device_id".data msg)) := by
  refine ⟨?_, by decide, by decide, by decide, ?_⟩
  · intro v _
    constructor
    · rintro ⟨h1, h2⟩
      rw [DeviceId.try_from, if_neg (by simp only [Bool.or_eq_true, decide_eq_true_eq]; omega)]
    · intro h
      exact ⟨_, by rw [DeviceId.try_from, if_pos (by simp only [Bool.or_eq_true, decide_eq_true_eq]; omega)]⟩
  · exact ⟨_, by rw [DeviceId.try_from, if_pos (by simp only [Bool.or_eq_true, decide_eq_true_eq, I64_MAX]; omega)]⟩

/-- Closed instantiation of the C9 theorem at accepted value 5 and rejected
value 0. -/
theorem claim_c9_device_id_bounds_witness :
    DeviceId.try_from 5 = .ok ⟨5⟩ ∧
    (∃ msg, DeviceId.try_from 0 =
      .error (.ValidationError "device_id".data msg)) :=
  ⟨(claim_c9_device_id_bounds.1 5 (by decide)).1 ⟨by decide, by decide⟩,
    (claim_c9_device_id_bounds.1 0 (by decide)).2 (by decide)⟩

/-- C10: `Jwt` structural validation does not require the three segments to
be non-empty or base64-decodable: the two-character string `..` (three
empty segments) is accepted. -/
theorem claim_c10_jwt_accepts_empty_segments :
    Jwt.try_from "..".data = .ok ⟨"..".data⟩ := by decide

/-- C1: for every 32-byte master key and non-empty password, and for any
rng draw (a 32-byte salt and a 12-byte IV, as the rng always produces),
encrypting with `encrypt_user_master_key` and decrypting with the same
password via `decrypt_user_master_key` succeeds and returns the original
master key — for any implementation of the external crypto primitives
satisfying their contracts. -/
theorem claim_c1_master_key_password_roundtrip (C : RingCrypto)
    (salt iv password user_master_key : List Nat)
    (_hsalt : salt.length = PBKDF2_SALT_LEN) (_hiv : iv.length = AES_IV_LEN)
    (_hpw : password ≠ []) (hkey : user_master_key.length = 32) :
    ∃ emk, encrypt_user_master_key C salt iv password user_master_key = some emk ∧
      decrypt_user_master_key C password emk = some user_master_key := by
  have hdklen : (derive_key_from_password C password salt).length = AES_KEY_LEN :=
    C.pbkdf2_length salt password
  have hct : (C.sealA (derive_key_from_password C password salt) iv
      user_master_key).length = ENCRYPTED_KEY_AND_GCM_TAG_LEN := by
    rw [C.seal_length, hkey]
    rfl
  refine ⟨⟨salt, iv, C.sealA (derive_key_from_password C password salt) iv
    user_master_key⟩, ?_, ?_⟩
  · rw [encrypt_user_master_key]
    rw [encrypt, if_pos hdklen]
    simp only [hct, if_pos]
  · rw [decrypt_user_master_key]
    simp only [decrypt, if_pos hdklen, C.open_seal, hkey, if_pos]

/-- Closed instantiation of the C1 theorem at the toy crypto instance and a
concrete salt, IV, password and master key. -/
theorem claim_c1_master_key_password_roundtrip_witness :
    ∃ emk, encrypt_user_master_key toyCrypto (List.replicate 32 0)
        (List.replicate 12 0) [7, 8] (List.replicate 32 5) = some emk ∧
      decrypt_user_master_key toyCrypto [7, 8] emk =
        some (List.replicate 32 5) :=
  claim_c1_master_key_password_roundtrip toyCrypto (List.replicate 32 0)
    (List.replicate 12 0) [7, 8] (List.replicate 32 5)
    (by decide) (by decide) (by decide) (by decide)

/-- C3: for every plaintext (any length, including 0) and every 32-byte
key, `encrypt` succeeds, `decrypt` of the result under the same key returns
the plaintext, and the ciphertext is exactly 16 bytes (the GCM tag) longer
than the plaintext — for any implementation of the external AEAD
satisfying its contracts. -/
theorem claim_c3_encrypt_decrypt_roundtrip (C : RingCrypto)
    (iv plaintext key : List Nat) (hkey : key.length = AES_KEY_LEN) :
    ∃ ev, encrypt C iv plaintext key = some ev ∧
      decrypt C ev key = some plaintext ∧
      ev.ciphertext.length = plaintext.length + 16 := by
  refine ⟨⟨iv, C.sealA key iv plaintext⟩, ?_, ?_, ?_⟩
  · rw [encrypt, if_pos hkey]
  · rw [decrypt, if_pos hkey]
    exact C.open_seal key iv plaintext
  · exact C.seal_length key iv plaintext

/-- Closed instantiation of the C3 theorem at the toy crypto instance, an
empty plaintext and a concrete key. -/
theorem claim_c3_encrypt_decrypt_roundtrip_witness :
    ∃ ev, encrypt toyCrypto (List.replicate 12 0) [] (List.replicate 32 4) = some ev ∧
      decrypt toyCrypto ev (List.replicate 32 4) = some [] ∧
      ev.ciphertext.length = List.length ([] : List Nat) + 16 :=
  claim_c3_encrypt_decrypt_roundtrip toyCrypto (List.replicate 12 0) []
    (List.replicate 32 4) (by decide)

/-- C6 (implicit): for every plaintext of length 0 or 1, `encrypt` succeeds
and the `bytes()` serialization of the result has length 28 or 29, so
feeding it back through `AesEncryptedValue::try_from` fails with
`AesEncryptedDocSizeError`, even though a direct `decrypt` of the
unserialized value returns the plaintext. -/
theorem claim_c6_short_plaintext_serialization_gap (C : RingCrypto)
    (iv plaintext key : List Nat) (hiv : iv.length = AES_IV_LEN)
    (hkey : key.length = AES_KEY_LEN) (hshort : plaintext.length ≤ 1) :
    ∃ ev, encrypt C iv plaintext key = some ev ∧
      ev.bytes.length = plaintext.length + 28 ∧
      AesEncryptedValue.try_from ev.bytes = .error .AesEncryptedDocSizeError ∧
      decrypt C ev key = some plaintext := by
  have hct : (C.sealA key iv plaintext).length = plaintext.length + 16 :=
    C.seal_length key iv plaintext
  have hbytes : (AesEncryptedValue.bytes ⟨iv, C.sealA key iv plaintext⟩).length =
      plaintext.length + 28 := by
    simp only [AesEncryptedValue.bytes, List.length_append, hct]
    simp only [hiv, AES_IV_LEN]
    omega
  refine ⟨⟨iv, C.sealA key iv plaintext⟩, ?_, hbytes, ?_, ?_⟩
  · rw [encrypt, if_pos hkey]
  · rw [AesEncryptedValue.try_from, if_pos (by
      simp only [hbytes, AES_IV_LEN, AES_GCM_TAG_LEN]; omega)]
  · rw [decrypt, if_pos hkey]
    exact C.open_seal key iv plaintext

/-- Closed instantiation of the C6 theorem at the toy crypto instance and a
one-byte plaintext. -/
theorem claim_c6_short_plaintext_serialization_gap_witness :
    ∃ ev, encrypt toyCrypto (List.replicate 12 0) [9] (List.replicate 32 4) = some ev ∧
      ev.bytes.length = List.length [9] + 28 ∧
      AesEncryptedValue.try_from ev.bytes = .error .AesEncryptedDocSizeError ∧
      decrypt toyCrypto ev (List.replicate 32 4) = some [9] :=
  claim_c6_short_plaintext_serialization_gap toyCrypto (List.replicate 12 0) [9]
    (List.replicate 32 4) (by decide) (by decide) (by decide)

/-- C7: when the backend key-list call succeeds, `get_user_keys` partitions
the input ids: the two result lists' lengths sum to the input length, every
input id lands on exactly one side (failed iff its key lookup is empty),
and both sides only contain input ids; the empty input list yields
`(empty, empty)` for every backend collaborator, in particular ones that
always fail — the backend is provably not consulted. -/
theorem claim_c7_get_user_keys_partition {E PK : Type}
    (user_key_list : List UserId → Except E (UserId → Option PK))
    (users : List UserId) :
    (∀ m, user_key_list users = .ok m →
      ∃ failed succeeded,
        get_user_keys user_key_list users = .ok (failed, succeeded) ∧
        failed.length + succeeded.length = users.length ∧
        (∀ u ∈ users, (u ∈ failed ∧ ∀ w ∈ succeeded, w.id ≠ u) ∨
          ((∃ w ∈ succeeded, w.id = u) ∧ u ∉ failed)) ∧
        (∀ u ∈ failed, u ∈ users) ∧ (∀ w ∈ succeeded, w.id ∈ users)) ∧
    (∀ ukl2 : List UserId → Except E (UserId → Option PK),
      get_user_keys ukl2 [] = .ok ([], [])) := by
  constructor
  · intro m hm
    cases users with
    | nil =>
        exact ⟨[], [], rfl, rfl, by simp, by simp, by simp⟩
    | cons a rest =>
        refine ⟨(partition_map (lookup_either m) (a :: rest)).1,
          (partition_map (lookup_either m) (a :: rest)).2, ?_,
          partition_map_length _ _, ?_, ?_, ?_⟩
        · rw [get_user_keys, if_neg (by simp), hm]
          rfl
        · intro u hu
          cases h : m u with
          | none =>
              left
              refine ⟨(mem_partition_left m (a :: rest) u).2 ⟨hu, h⟩, ?_⟩
              intro w hw hwid
              have := ((mem_partition_right m (a :: rest) w).1 hw).2
              rw [hwid, h] at this
              cases this
          | some pk =>
              right
              constructor
              · exact ⟨⟨u, pk⟩, (mem_partition_right m (a :: rest) ⟨u, pk⟩).2 ⟨hu, h⟩, rfl⟩
              · intro habs
                have := ((mem_partition_left m (a :: rest) u).1 habs).2
                rw [h] at this
                cases this
        · intro u hu
          exact ((mem_partition_left m (a :: rest) u).1 hu).1
        · intro w hw
          exact ((mem_partition_right m (a :: rest) w).1 hw).1
  · intro ukl2
    rfl

/-- Closed instantiation of the C7 theorem on the two-element input
`[a, b]` against the scripted backend. -/
theorem claim_c7_get_user_keys_partition_witness :
    ∃ failed succeeded,
      get_user_keys demoKeyList [⟨"a".data⟩, ⟨"b".data⟩] = .ok (failed, succeeded) ∧
      failed.length + succeeded.length = 2 ∧
      (∀ u ∈ [(⟨"a".data⟩ : UserId), ⟨"b".data⟩],
        (u ∈ failed ∧ ∀ w ∈ succeeded, w.id ≠ u) ∨
        ((∃ w ∈ succeeded, w.id = u) ∧ u ∉ failed)) ∧
      (∀ u ∈ failed, u ∈ [(⟨"a".data⟩ : UserId), ⟨"b".data⟩]) ∧
      (∀ w ∈ succeeded, w.id ∈ [(⟨"a".data⟩ : UserId), ⟨"b".data⟩]) :=
  (claim_c7_get_user_keys_partition demoKeyList [⟨"a".data⟩, ⟨"b".data⟩]).1
    (fun u => if u.val = "a".data then some 1 else none) rfl

/-- C4: `validate_id` trims leading/trailing whitespace; it fails with a
`ValidationError` whose rendered message contains both the field name and
the offending (trimmed) value whenever the trimmed string is empty, longer
than 100 bytes, or contains a character outside the restricted set, and
otherwise returns the trimmed string. In particular " abc212 " is accepted
as "abc212", "with spaces" is rejected, a 101-character id is rejected and
a 100-character id is accepted. -/
theorem claim_c4_validate_id :
    (∀ id id_type : List Char,
      ((trim_ws id = [] ∨ 100 < utf8Length (trim_ws id) ∨
          ∃ c ∈ trim_ws id, id_char_allowed c = false) →
        ∃ msg, validate_id id id_type = .error (.ValidationError id_type msg) ∧
          containsSub id_type ((IronOxideErr.ValidationError id_type msg).display) ∧
          containsSub (trim_ws id) ((IronOxideErr.ValidationError id_type msg).display)) ∧
      (¬(trim_ws id = [] ∨ 100 < utf8Length (trim_ws id) ∨
          ∃ c ∈ trim_ws id, id_char_allowed c = false) →
        validate_id id id_type = .ok (trim_ws id))) ∧
    validate_id " abc212 ".data "id".data = .ok "abc212".data ∧
    (∃ msg, validate_id "with spaces".data "id".data =
        .error (.ValidationError "id".data msg)) ∧
    (∃ msg, validate_id (List.replicate 101 'a') "id".data =
        .error (.ValidationError "id".data msg)) ∧
    validate_id (List.replicate 100 'a') "id".data = .ok (List.replicate 100 'a') := by
  refine ⟨?_, by decide,
    ⟨fmtQuoted "with spaces".data ++ " contains invalid characters".data, by decide⟩,
    ⟨fmtQuoted (List.replicate 101 'a') ++ " must have length between 1 and 100".data,
      by decide⟩,
    by decide⟩
  intro id id_type
  constructor
  · intro hbad
    by_cases hA : trim_ws id = [] ∨ 100 < utf8Length (trim_ws id)
    · refine ⟨fmtQuoted (trim_ws id) ++ " must have length between 1 and 100".data,
        ?_, display_contains_field _ _, display_contains_quoted _ _ _⟩
      simp only [validate_id]
      rw [if_pos]
      simp only [Bool.or_eq_true, decide_eq_true_eq, List.isEmpty_iff, NAME_AND_ID_MAX_LEN]
      exact hA
    · have hbadchar : ∃ c ∈ trim_ws id, id_char_allowed c = false := by
        rcases hbad with h | h | h
        · exact absurd (Or.inl h) hA
        · exact absurd (Or.inr h) hA
        · exact h
      obtain ⟨c, hc, hcf⟩ := hbadchar
      have hall : (trim_ws id).all id_char_allowed = false :=
        List.all_eq_false.2 ⟨c, hc, by simp [hcf]⟩
      refine ⟨fmtQuoted (trim_ws id) ++ " contains invalid characters".data,
        ?_, display_contains_field _ _, display_contains_quoted _ _ _⟩
      simp only [validate_id]
      rw [if_neg (by
        simp only [Bool.or_eq_true, decide_eq_true_eq, List.isEmpty_iff, NAME_AND_ID_MAX_LEN]
        exact hA)]
      rw [if_pos (by simp [id_regex_is_match, hall])]
  · intro hok
    push_neg at hok
    obtain ⟨hne, hlen, hchars⟩ := hok
    have hall : (trim_ws id).all id_char_allowed = true :=
      List.all_eq_true.2 fun c hc => by
        cases hac : id_char_allowed c with
        | true => rfl
        | false => exact absurd hac (hchars c hc)
    simp only [validate_id]
    rw [if_neg (by
      simp only [Bool.or_eq_true, decide_eq_true_eq, List.isEmpty_iff, NAME_AND_ID_MAX_LEN]
      rintro (h | h)
      · exact hne h
      · omega)]
    rw [if_neg (by
      simp only [id_regex_is_match, hall, Bool.not_eq_true]
      simp [List.isEmpty_iff, hne])]

/-- Closed instantiation of the C4 theorem on a rejected id containing a
space and an accepted dotted id. -/
theorem claim_c4_validate_id_witness :
    (∃ msg, validate_id "no way".data "fld".data =
        .error (.ValidationError "fld".data msg) ∧
      containsSub "fld".data ((IronOxideErr.ValidationError "fld".data msg).display) ∧
      containsSub (trim_ws "no way".data)
        ((IronOxideErr.ValidationError "fld".data msg).display)) ∧
    validate_id "good.id".data "fld".data = .ok (trim_ws "good.id".data) :=
  ⟨(claim_c4_validate_id.1 "no way".data "fld".data).1 (by decide),
    (claim_c4_validate_id.1 "good.id".data "fld".data).2 (by decide)⟩

end IronOxide
